import Mathlib

/-!
Verification of the daily bilingual newspaper pipeline (`main.py`).

Text is modelled as `List Char`. External effects (feed fetching, the
generative-model call, the clock, the file system, PDF rendering) are
modelled as explicit inputs: a feed source is either a parse failure or a
list of entries each of which either yields an article or raises during
extraction; the generation call is an oracle from prompt to optional
response text; fallible file reads are inductive states.
-/

abbrev Str := List Char

def chars (s : String) : Str := s.toList

/-- The left-brace character, first character of every template placeholder. -/
def lbrace : Char := Char.ofNat 123

structure Article where
  title : Str
  summary : Str
  link : Str
deriving DecidableEq

/-- One feed source as seen by `get_fresh_news`:
`none` models `feedparser.parse` itself raising; `some entries` is the
parsed entry list, where an entry of `none` models an exception raised
while extracting `entry.title` / `entry.summary` / `entry.link` (which
aborts the per-source loop but keeps the articles appended so far). -/
abbrev SourceResult := Option (List (Option Article))

/-- Articles appended by the per-source `for` loop before the first
extraction failure (the `except` catches the exception mid-loop). -/
def extractEntries : List (Option Article) → List Article
  | [] => []
  | none :: _ => []
  | some a :: rest => a :: extractEntries rest

/-- What one source contributes to the accumulator in `get_fresh_news`:
nothing if the parse raised, otherwise the successfully extracted prefix
of its first 7 entries (`feed.entries[:7]`). -/
def sourceArticles (s : SourceResult) : List Article :=
  match s with
  | none => []
  | some entries => extractEntries (entries.take 7)

/-- `get_fresh_news(rss_urls, max_articles=20)`: accumulate per-source
contributions in source order, then truncate (`articles[:max_articles]`). -/
def get_fresh_news (sources : List SourceResult) (max_articles : Nat) : List Article :=
  ((sources.map sourceArticles).flatten).take max_articles

/-- All articles of a source in feed-entry order, ignoring where an
extraction failure would cut the loop (used to state order preservation). -/
def feedOrderArticles (s : SourceResult) : List Article :=
  (s.getD []).filterMap id

/-- `SMART_PROMPT.format(language=..., title=..., summary=...)`. -/
def mkPrompt (language title summary : Str) : Str :=
  chars "\nYou are a neutral, senior news analyst for \"Unmasked India\". Analyze the following article content.\n1. Provide a factual, unbiased summary of the key events in about 150-200 words.\n2. Explain the background of this issue in 2-3 simple points.\n3. Present the main arguments from both sides (Pro and Con), if applicable.\n4. Conclude with one open-ended, thought-provoking question (Manthan Point).\nThe final output must be in clear, accessible " ++ language ++
  chars ".\nThe summary should be in HTML paragraph tags <p>, and the Manthan Point in a paragraph with class \x27manthan-point\x27.\n\nArticle Title: " ++ title ++
  chars "\nArticle Summary from RSS: " ++ summary ++ chars "\n"

/-- `f"<h3>{article['title']}</h3>\n{response.text}"`. -/
def fullAnalysis (a : Article) (text : Str) : Str :=
  chars "<h3>" ++ a.title ++ chars "</h3>\n" ++ text

/-- `get_ai_analysis(articles, language)`: the generation call (prompt
formatting, `model.generate_content`, `response.text`) is the oracle
`generate`; `none` models any exception in the per-article `try`, which is
caught and skips the article. -/
def get_ai_analysis (generate : Str → Option Str) (language : Str) :
    List Article → List Str
  | [] => []
  | a :: rest =>
    match generate (mkPrompt language a.title a.summary) with
    | some text => fullAnalysis a text :: get_ai_analysis generate language rest
    | none => get_ai_analysis generate language rest

/-- Whether the generation call for an article succeeds. -/
def analysisSucceeds (generate : Str → Option Str) (language : Str) (a : Article) : Bool :=
  (generate (mkPrompt language a.title a.summary)).isSome

/-- The fragment emitted for a successfully analyzed article. -/
def articleFragment (generate : Str → Option Str) (language : Str) (a : Article) : Str :=
  fullAnalysis a ((generate (mkPrompt language a.title a.summary)).getD [])

structure Sponsor where
  name : Str
  logo_url : Str
deriving DecidableEq

/-- Relevant content of `sponsors.json`: each key either absent/null
(`none`) or a list. -/
structure SponsorConfig where
  gold_sponsors : Option (List Sponsor)
  silver_sponsors : Option (List Sponsor)
deriving DecidableEq

/-- State of the sponsor file: missing (`FileNotFoundError`, caught),
unreadable (any other exception from `open`/`json.load`/`data.get`,
not caught), or valid JSON content. -/
inductive SponsorFile
  | absent
  | unreadable
  | valid (cfg : SponsorConfig)
deriving DecidableEq

/-- `data.get(k, [])` followed by the falsiness check that maps an absent
key, a null value or an empty list to `None`. -/
def normalizeTier : Option (List Sponsor) → Option (List Sponsor)
  | none => none
  | some [] => none
  | some (x :: xs) => some (x :: xs)

/-- `load_sponsors()`: `.error ()` models an uncaught exception. -/
def load_sponsors : SponsorFile → Except Unit (Option (List Sponsor) × Option (List Sponsor))
  | .absent => .ok (none, none)
  | .unreadable => .error ()
  | .valid cfg => .ok (normalizeTier cfg.gold_sponsors, normalizeTier cfg.silver_sponsors)

/-- Scanning loop of `str.replace`: at each position, if the pattern
matches, emit the replacement and resume after the match, else emit one
character. The fuel argument only makes the recursion structural; it is
always called with fuel at least the length of the text. -/
def replaceAux (pat rep : Str) : Nat → Str → Str
  | _, [] => []
  | 0, s => s
  | fuel + 1, c :: cs =>
    if pat.isPrefixOf (c :: cs) then rep ++ replaceAux pat rep fuel ((c :: cs).drop pat.length)
    else c :: replaceAux pat rep fuel cs

/-- `s.replace(pat, rep)` for the nonempty patterns used by the program
(every occurrence, scanning left to right, no rescan of replacements). -/
def replaceAll (s pat rep : Str) : Str :=
  if pat = [] then s else replaceAux pat rep s.length s

/-- Decidable substring test (`pat in s`), used to state containment. -/
def containsSub (pat : Str) : Str → Bool
  | [] => pat.isEmpty
  | c :: cs => pat.isPrefixOf (c :: cs) || containsSub pat cs

def rbrace : Char := Char.ofNat 125

def phGoldTail : Str := lbrace :: (chars " gold_sponsors_html " ++ [rbrace, rbrace])

def phSilverTail : Str := lbrace :: (chars " silver_sponsors_html " ++ [rbrace, rbrace])

def phDateTail : Str := lbrace :: (chars " today_date " ++ [rbrace, rbrace])

def phArtTail : Str := lbrace :: (chars " articles_html " ++ [rbrace, rbrace])

/-- Placeholder token `{{ gold_sponsors_html }}`. -/
def PH_GOLD : Str := lbrace :: phGoldTail

/-- Placeholder token `{{ silver_sponsors_html }}`. -/
def PH_SILVER : Str := lbrace :: phSilverTail

/-- Placeholder token `{{ today_date }}`. -/
def PH_DATE : Str := lbrace :: phDateTail

/-- Placeholder token `{{ articles_html }}`. -/
def PH_ART : Str := lbrace :: phArtTail

def topDivOpen : Str := chars "<div class=\"sponsors-top\">"

def topDivHidden : Str := chars "<div class=\"sponsors-top\" style=\"display:none;\">"

def bottomDivOpen : Str := chars "<div class=\"sponsors-bottom\">"

def bottomDivHidden : Str := chars "<div class=\"sponsors-bottom\" style=\"display:none;\">"

def bodyTag : Str := chars "<body>"

def bodyTagHindi : Str := chars "<body class=\"lang-hi\">"

def divClose : Str := chars "</div>"

/-- `f'<img src="{sponsor["logo_url"]}" alt="{sponsor["name"]}">'`. -/
def sponsorImg (sp : Sponsor) : Str :=
  chars "<img src=\"" ++ sp.logo_url ++ chars "\" alt=\"" ++ sp.name ++ chars "\">"

/-- Python truthiness of a sponsor tier value (`if gold_sponsors:`):
true exactly for a non-empty list. -/
def truthy : Option (List Sponsor) → Bool
  | some (_ :: _) => true
  | _ => false

/-- `generate_newspaper_html`: the template text and the formatted date
(read from `template.html` and the clock) are passed as inputs. -/
def generate_newspaper_html (template_str : Str) (analyzed_articles : List Str)
    (gold_sponsors silver_sponsors : Option (List Sponsor)) (language : Str)
    (today_date_str : Str) : Str :=
  let gold_sponsors_html : Str :=
    if truthy gold_sponsors then ((gold_sponsors.getD []).map sponsorImg).flatten else []
  let t1 : Str :=
    if truthy gold_sponsors then template_str
    else replaceAll template_str topDivOpen topDivHidden
  let silver_sponsors_html : Str :=
    if truthy silver_sponsors then ((silver_sponsors.getD []).map sponsorImg).flatten else []
  let t2 : Str :=
    if truthy silver_sponsors then t1 else replaceAll t1 bottomDivOpen bottomDivHidden
  let articles_html_str : Str :=
    (analyzed_articles.map (fun content => chars "<article>" ++ content ++ chars "</article>")).flatten
  let f1 := replaceAll t2 PH_GOLD gold_sponsors_html
  let f2 := replaceAll f1 PH_SILVER silver_sponsors_html
  let f3 := replaceAll f2 PH_DATE today_date_str
  let f4 := replaceAll f3 PH_ART articles_html_str
  if language = chars "Hindi" then replaceAll f4 bodyTag bodyTagHindi else f4

def tSeg0 : Str := chars "<html><body><div class=\"sponsors-top\">"

def tSeg0H : Str := chars "<html><body><div class=\"sponsors-top\" style=\"display:none;\">"

def tSeg1 : Str := chars "</div><div class=\"sponsors-bottom\">"

def tSeg1H : Str := chars "</div><div class=\"sponsors-bottom\" style=\"display:none;\">"

def tSeg2 : Str := chars "</div><p class=\"date\">"

def tSeg3 : Str := chars "</p><main>"

def tSeg4 : Str := chars "</main></body></html>"

/-- Modelled from the spec: `template.html` is not under `src/`; per the
spec it is a static document containing the four placeholder tokens to be
substituted verbatim plus the two sponsor container elements identified by
class name. -/
def TEMPLATE : Str :=
  tSeg0 ++ PH_GOLD ++ tSeg1 ++ PH_SILVER ++ tSeg2 ++ PH_DATE ++ tSeg3 ++ PH_ART ++ tSeg4

/-- Observable effects of one program run. -/
inductive Event
  | analysisRun (language : Str)
  | htmlGenerated (language : Str)
  | pdfWritten (filename : Str) (html : Str)
deriving DecidableEq

/-- Whether an event belongs to the language run identified by its
language label and output filename. -/
def isLangEvent (language filename : Str) : Event → Bool
  | .analysisRun l => decide (l = language)
  | .htmlGenerated l => decide (l = language)
  | .pdfWritten f _ => decide (f = filename)

def hasLangEvent (language filename : Str) (evs : List Event) : Bool :=
  evs.any (isLangEvent language filename)

/-- Filenames of the PDFs actually written during a run. -/
def writtenFiles (evs : List Event) : List Str :=
  evs.filterMap (fun ev => match ev with | .pdfWritten f _ => some f | _ => none)

/-- External world of one invocation: sponsor file state, per-source feed
results for the two fixed feed lists, the generation oracle, the template
text, the formatted dates, and whether each `write_pdf` call succeeds. -/
structure Env where
  sponsorFile : SponsorFile
  englishSources : List SourceResult
  hindiSources : List SourceResult
  generate : Str → Option Str
  template : Str
  englishDate : Str
  hindiDate : Str
  englishPdfOk : Bool
  hindiPdfOk : Bool

/-- One language block of `__main__`: fetch, then (if any articles)
analyze, assemble, and render; a failing `convert_html_to_pdf` raises
(second component `false`), which `__main__` does not catch. -/
def languageRun (generate : Str → Option Str) (tmpl : Str)
    (gold silver : Option (List Sponsor)) (sources : List SourceResult)
    (language date filename : Str) (pdfOk : Bool) : List Event × Bool :=
  let arts := get_fresh_news sources 20
  if arts.isEmpty then ([], true)
  else
    let an := get_ai_analysis generate language arts
    let html := generate_newspaper_html tmpl an gold silver language date
    if pdfOk then ([.analysisRun language, .htmlGenerated language, .pdfWritten filename html], true)
    else ([.analysisRun language, .htmlGenerated language], false)

/-- The English block of `__main__`. -/
def englishRun (e : Env) (gold silver : Option (List Sponsor)) : List Event × Bool :=
  languageRun e.generate e.template gold silver e.englishSources
    (chars "English") e.englishDate (chars "Unmasked_India_EN.pdf") e.englishPdfOk

/-- The Hindi block of `__main__`. -/
def hindiRun (e : Env) (gold silver : Option (List Sponsor)) : List Event × Bool :=
  languageRun e.generate e.template gold silver e.hindiSources
    (chars "Hindi") e.hindiDate (chars "Unmasked_India_HI.pdf") e.hindiPdfOk

/-- The `__main__` workflow: load sponsors once, then run English and
Hindi sequentially; an uncaught exception anywhere ends the process
(second component `false`) and skips everything after it. -/
def mainWorkflow (e : Env) : List Event × Bool :=
  match load_sponsors e.sponsorFile with
  | .error _ => ([], false)
  | .ok gs =>
    let en := englishRun e gs.1 gs.2
    if en.2 then
      let hi := hindiRun e gs.1 gs.2
      (en.1 ++ hi.1, hi.2)
    else (en.1, false)

def artA : Article := ⟨chars "T1", chars "S1", chars "L1"⟩

def artB : Article := ⟨chars "T2", chars "S2", chars "L2"⟩

def spAcme : Sponsor := ⟨chars "Acme", chars "https://x/a.png"⟩

def spSilverCo : Sponsor := ⟨chars "SilverCo", chars "https://x/s.png"⟩

/-- A sponsor whose name is itself the silver placeholder token. -/
def spInject : Sponsor := ⟨PH_SILVER, chars "https://x/i.png"⟩

def genX : Str → Option Str := fun _ => some (chars "X")

/-- World where the English feeds and the Hindi feeds each yield one
article, both PDFs could be produced, but the English `write_pdf` raises. -/
def envC6 : Env :=
  ⟨.absent, [some [some artA]], [some [some artB]], genX, [], chars "D", chars "D", false, true⟩

/-- World where the sponsor file exists but is not valid JSON. -/
def envC9 : Env :=
  ⟨.unreadable, [some [some artA]], [some [some artB]], genX, [], chars "D", chars "D", true, true⟩

/-- World where every English feed source fails to parse. -/
def envC10 : Env :=
  ⟨.absent, [none], [some [some artB]], genX, [], chars "D", chars "D", true, true⟩

/-- The sponsor markup accumulated for one tier (empty for a falsy tier). -/
def tierHtml (o : Option (List Sponsor)) : Str :=
  if truthy o then ((o.getD []).map sponsorImg).flatten else []

/-- The template segment before the gold placeholder after the gold hide
step (original when the tier is shown, hidden otherwise). -/
def u0Of (gold : Option (List Sponsor)) : Str :=
  if truthy gold then tSeg0 else tSeg0H

/-- The template segment between the two placeholders after the silver
hide step. -/
def u1Of (silver : Option (List Sponsor)) : Str :=
  if truthy silver then tSeg1 else tSeg1H

/-- What follows the closing `</div>` at the start of `u1Of`. -/
def u1TailOf (silver : Option (List Sponsor)) : Str :=
  if truthy silver then bottomDivOpen else bottomDivHidden

/-- `"".join(f"<article>{content}</article>" for content in analyzed)`. -/
def artsHtml (arts : List Str) : Str :=
  (arts.map (fun content => chars "<article>" ++ content ++ chars "</article>")).flatten

/-- The document assembled from the model template with the fixed date
string and the single fixed article fragment. -/
def docC5 : Str :=
  generate_newspaper_html TEMPLATE [chars "<h3>T</h3><p>S</p>"] none none
    (chars "English") (chars "Monday, 01 January 2024")

/-- The document assembled when the gold sponsor's name is itself the
silver placeholder token. -/
def docInj : Str :=
  generate_newspaper_html TEMPLATE [] (some [spInject]) (some [spSilverCo])
    (chars "English") (chars "D")

theorem preToInfixRel {α : Type} {l₁ l₂ : List α} (h : l₁ <+: l₂) : l₁ <:+: l₂ :=
  List.IsPrefix.isInfix h

theorem infixConsIntro {α : Type} {l₁ l₂ : List α} {a : α} (h : l₁ <:+: l₂) : l₁ <:+: a :: l₂ :=
  List.infix_cons h

theorem infixConsElim {α : Type} {l₁ l₂ : List α} {a : α} (h : l₁ <:+: a :: l₂) :
    l₁ <+: a :: l₂ ∨ l₁ <:+: l₂ :=
  List.infix_cons_iff.mp h

theorem infixNilIff {α : Type} {l : List α} : l <:+: ([] : List α) ↔ l = [] :=
  List.infix_nil

theorem prefixOfIff {l₁ l₂ : Str} : l₁.isPrefixOf l₂ = true ↔ l₁ <+: l₂ :=
  List.isPrefixOf_iff_prefix

theorem nilPre {α : Type} (l : List α) : [] <+: l :=
  List.nil_prefix

theorem prefApp {α : Type} (l₁ l₂ : List α) : l₁ <+: l₁ ++ l₂ :=
  List.prefix_append l₁ l₂

theorem extractEntries_length_le (l : List (Option Article)) :
    (extractEntries l).length ≤ l.length := by
  induction l with
  | nil => simp [extractEntries]
  | cons x t ih =>
    cases x with
    | none => simp [extractEntries]
    | some a =>
      simp only [extractEntries, List.length_cons]
      omega

theorem extractEntries_take_pre (n : Nat) (l : List (Option Article)) :
    extractEntries (l.take n) <+: extractEntries l := by
  induction l generalizing n with
  | nil => simp [extractEntries]
  | cons x t ih =>
    cases n with
    | zero => exact nilPre _
    | succ m =>
      cases x with
      | none => simp [extractEntries]
      | some a =>
        obtain ⟨k, hk⟩ := ih m
        exact ⟨k, by simp [List.take_succ_cons, extractEntries, hk]⟩

theorem extractEntries_pre_filterMap (l : List (Option Article)) :
    extractEntries l <+: l.filterMap id := by
  induction l with
  | nil => simp [extractEntries]
  | cons x t ih =>
    cases x with
    | none => exact nilPre _
    | some a =>
      obtain ⟨k, hk⟩ := ih
      exact ⟨k, by simp [extractEntries, hk]⟩

theorem sourceArticles_pre (s : SourceResult) :
    sourceArticles s <+: feedOrderArticles s := by
  cases s with
  | none => exact nilPre _
  | some es =>
    exact List.IsPrefix.trans (extractEntries_take_pre 7 es) (extractEntries_pre_filterMap es)

theorem sourceArticles_length_le (s : SourceResult) : (sourceArticles s).length ≤ 7 := by
  cases s with
  | none => simp [sourceArticles]
  | some es =>
    refine le_trans (extractEntries_length_le _) ?_
    rw [List.length_take]
    exact Nat.min_le_left _ _

theorem flatten_sourceArticles_length (l : List SourceResult) :
    ((l.map sourceArticles).flatten).length ≤ 7 * l.length := by
  induction l with
  | nil => simp
  | cons s t ih =>
    have hs := sourceArticles_length_le s
    simp only [List.map_cons, List.flatten_cons, List.length_append, List.length_cons]
    omega

theorem flatten_sourceArticles_sublist (l : List SourceResult) :
    List.Sublist ((l.map sourceArticles).flatten) ((l.map feedOrderArticles).flatten) := by
  induction l with
  | nil => simp
  | cons s t ih =>
    simp only [List.map_cons, List.flatten_cons]
    exact List.Sublist.append (List.IsPrefix.sublist (sourceArticles_pre s)) ih

/-- C1: for every list of feed sources and every maximum total count, the
article sequence returned by `get_fresh_news` has length at most
`min(7 × number_of_sources, max_articles)`, and it is a subsequence of the
concatenation, in source-list order, of each source's articles in
feed-entry order. -/
theorem get_fresh_news_bound_and_order (sources : List SourceResult) (max_articles : Nat) :
    (get_fresh_news sources max_articles).length ≤ min (7 * sources.length) max_articles ∧
    List.Sublist (get_fresh_news sources max_articles) ((sources.map feedOrderArticles).flatten) := by
  constructor
  · have h1 : (get_fresh_news sources max_articles).length
        = min max_articles ((sources.map sourceArticles).flatten).length := by
      simp [get_fresh_news, List.length_take]
    have h2 := flatten_sourceArticles_length sources
    omega
  · exact List.Sublist.trans (List.take_sublist _ _) (flatten_sourceArticles_sublist sources)

/-- C2: the list returned by `get_ai_analysis` is exactly the fragments of
the successfully analyzed articles in input order (one complete fragment
per success, none per failure), hence an order-preserving subsequence of
the per-article fragment list. -/
theorem get_ai_analysis_subsequence (generate : Str → Option Str) (language : Str)
    (arts : List Article) :
    get_ai_analysis generate language arts
      = (arts.filter (analysisSucceeds generate language)).map (articleFragment generate language) ∧
    List.Sublist (get_ai_analysis generate language arts) (arts.map (articleFragment generate language)) := by
  have h : ∀ as : List Article, get_ai_analysis generate language as
      = (as.filter (analysisSucceeds generate language)).map (articleFragment generate language) := by
    intro as
    induction as with
    | nil => rfl
    | cons a t ih =>
      cases hg : generate (mkPrompt language a.title a.summary) with
      | some text =>
        simp [get_ai_analysis, hg, List.filter_cons, analysisSucceeds, articleFragment, ih]
      | none =>
        simp [get_ai_analysis, hg, List.filter_cons, analysisSucceeds, ih]
  refine ⟨h arts, ?_⟩
  rw [h arts]
  exact List.Sublist.map _ (List.filter_sublist _)

theorem normalizeTier_ne_empty (o : Option (List Sponsor)) : normalizeTier o ≠ some [] := by
  cases o with
  | none => simp [normalizeTier]
  | some l => cases l <;> simp [normalizeTier]

/-- C3: `load_sponsors` returns per tier the absent sentinel when the file
is missing, when the tier key is missing or null, or when the tier's list
is empty; otherwise it returns the configured list unchanged; it never
returns an empty list for a tier. -/
theorem load_sponsors_tristate (f : SponsorFile) (g s : Option (List Sponsor))
    (h : load_sponsors f = .ok (g, s)) :
    (g ≠ some [] ∧ s ≠ some []) ∧
    (f = .absent → g = none ∧ s = none) ∧
    (∀ cfg, f = .valid cfg →
      ((cfg.gold_sponsors = none ∨ cfg.gold_sponsors = some []) → g = none) ∧
      (∀ x l, cfg.gold_sponsors = some (x :: l) → g = some (x :: l)) ∧
      ((cfg.silver_sponsors = none ∨ cfg.silver_sponsors = some []) → s = none) ∧
      (∀ x l, cfg.silver_sponsors = some (x :: l) → s = some (x :: l))) := by
  cases f with
  | absent =>
    simp only [load_sponsors, Except.ok.injEq, Prod.mk.injEq] at h
    obtain ⟨hg, hs⟩ := h
    subst hg; subst hs
    refine ⟨⟨by simp, by simp⟩, fun _ => ⟨rfl, rfl⟩, ?_⟩
    intro cfg hcfg
    exact absurd hcfg (by simp)
  | unreadable => simp [load_sponsors] at h
  | valid cfg =>
    simp only [load_sponsors, Except.ok.injEq, Prod.mk.injEq] at h
    obtain ⟨hg, hs⟩ := h
    refine ⟨⟨by rw [← hg]; exact normalizeTier_ne_empty _,
             by rw [← hs]; exact normalizeTier_ne_empty _⟩,
           by simp, ?_⟩
    intro cfg' hcfg
    have hc : cfg' = cfg := by
      injection hcfg with h'
      exact h'.symm
    subst hc
    refine ⟨?_, ?_, ?_, ?_⟩
    · intro hcase
      rcases hcase with hx | hx <;> rw [← hg, hx] <;> simp [normalizeTier]
    · intro x l hx
      rw [← hg, hx]; simp [normalizeTier]
    · intro hcase
      rcases hcase with hx | hx <;> rw [← hs, hx] <;> simp [normalizeTier]
    · intro x l hx
      rw [← hs, hx]; simp [normalizeTier]

theorem load_sponsors_tristate_witness :
    ((some [spAcme] : Option (List Sponsor)) ≠ some [] ∧
      (none : Option (List Sponsor)) ≠ some []) :=
  (load_sponsors_tristate (.valid ⟨some [spAcme], some []⟩) (some [spAcme]) none rfl).1

/-- C7 counterexample: a source whose parse loop fails at its second entry
(`except` fires, the code logs "Could not parse feed") still contributes
the article extracted before the failure — a partial prefix, not zero
articles as the claim states. -/
theorem fetch_partial_prefix_counterexample :
    get_fresh_news [some [some artA, none, some artB]] 20 = [artA] ∧
    get_fresh_news [some [some artA, none, some artB]] 20 ≠ [] ∧
    get_fresh_news [] 20 = ([] : List Article) := by decide

/-- C7 amended: a source that fails before extracting any entry
contributes zero articles and the result equals the run with that source
omitted, with every other source's contribution unchanged; in general a
failing source contributes a prefix of its articles in feed-entry order;
the failure never propagates (the function is total). -/
theorem fetch_source_failure_amended :
    (∀ (xs ys : List SourceResult) (s : SourceResult) (max_articles : Nat),
        sourceArticles s = [] →
        get_fresh_news (xs ++ s :: ys) max_articles = get_fresh_news (xs ++ ys) max_articles) ∧
    (∀ s : SourceResult, sourceArticles s <+: feedOrderArticles s) := by
  constructor
  · intro xs ys s m hs
    simp [get_fresh_news, hs]
  · exact sourceArticles_pre

theorem fetch_source_failure_amended_witness :
    get_fresh_news [none, some [some artA]] 20 = get_fresh_news [some [some artA]] 20 :=
  fetch_source_failure_amended.1 [] [some [some artA]] none 20 rfl

theorem replaceAux_nilText (pat rep : Str) (fuel : Nat) : replaceAux pat rep fuel [] = [] := by
  cases fuel <;> rfl

theorem replaceAux_fuel (pat rep : Str) (hpat : pat ≠ []) :
    ∀ (f₁ f₂ : Nat) (s : Str), s.length ≤ f₁ → s.length ≤ f₂ →
      replaceAux pat rep f₁ s = replaceAux pat rep f₂ s := by
  intro f₁
  induction f₁ with
  | zero =>
    intro f₂ s h1 _
    have hs : s = [] := List.eq_nil_of_length_eq_zero (Nat.le_zero.mp h1)
    subst hs
    rw [replaceAux_nilText, replaceAux_nilText]
  | succ n ih =>
    intro f₂ s h1 h2
    cases s with
    | nil => rw [replaceAux_nilText, replaceAux_nilText]
    | cons c cs =>
      cases f₂ with
      | zero => simp at h2
      | succ m =>
        have hplen : 1 ≤ pat.length := List.length_pos.mpr hpat
        simp only [replaceAux]
        by_cases hp : pat.isPrefixOf (c :: cs) = true
        · simp only [hp, if_true]
          have hdl : ((c :: cs).drop pat.length).length ≤ cs.length := by
            rw [List.length_drop]
            simp only [List.length_cons]
            omega
          have hlen1 : ((c :: cs).drop pat.length).length ≤ n := by
            simp only [List.length_cons] at h1
            omega
          have hlen2 : ((c :: cs).drop pat.length).length ≤ m := by
            simp only [List.length_cons] at h2
            omega
          rw [ih m _ hlen1 hlen2]
        · simp only [Bool.not_eq_true] at hp
          simp only [hp, Bool.false_eq_true, if_false]
          have hlen1 : cs.length ≤ n := by
            simp only [List.length_cons] at h1
            omega
          have hlen2 : cs.length ≤ m := by
            simp only [List.length_cons] at h2
            omega
          rw [ih m cs hlen1 hlen2]

theorem replaceAux_noop (pat rep : Str) :
    ∀ (fuel : Nat) (s : Str), ¬ pat <:+: s → replaceAux pat rep fuel s = s := by
  intro fuel
  induction fuel with
  | zero =>
    intro s _
    cases s with
    | nil => rfl
    | cons c cs => rfl
  | succ n ih =>
    intro s hinf
    cases s with
    | nil => rfl
    | cons c cs =>
      have hp : pat.isPrefixOf (c :: cs) = false := by
        cases hcheck : pat.isPrefixOf (c :: cs) with
        | false => rfl
        | true => exact absurd (preToInfixRel (prefixOfIff.mp hcheck)) hinf
      simp only [replaceAux, hp, Bool.false_eq_true, if_false]
      rw [ih cs (fun hi => hinf (infixConsIntro hi))]

theorem replaceAll_noop (s pat rep : Str) (h : ¬ pat <:+: s) : replaceAll s pat rep = s := by
  by_cases hpat : pat = []
  · rw [replaceAll, if_pos hpat]
  · rw [replaceAll, if_neg hpat]
    exact replaceAux_noop pat rep s.length s h

theorem notInfixOfContainsSub (pat s : Str) (h : containsSub pat s = false) : ¬ pat <:+: s := by
  intro hinf
  induction s with
  | nil =>
    rw [infixNilIff] at hinf
    subst hinf
    simp [containsSub, List.isEmpty_iff] at h
  | cons c cs ih =>
    simp only [containsSub, Bool.or_eq_false_iff] at h
    rcases infixConsElim hinf with hpre | hinf'
    · exact absurd (prefixOfIff.mpr hpre) (by simp [h.1])
    · exact ih h.2 hinf'

theorem replaceAll_skip (x t p rep : Str) (c0 : Char) (h : c0 ∉ x) :
    replaceAll (x ++ t) (c0 :: p) rep = x ++ replaceAll t (c0 :: p) rep := by
  induction x with
  | nil => simp
  | cons a x' ih =>
    have h' : c0 ∉ x' := fun hm => h (List.mem_cons_of_mem a hm)
    have hca : (c0 == a) = false :=
      beq_eq_false_iff_ne.mpr (fun he => h (by rw [he]; exact List.mem_cons_self a x'))
    have hne : (c0 :: p).isPrefixOf (a :: (x' ++ t)) = false := by
      simp [List.isPrefixOf, hca]
    rw [List.cons_append, replaceAll, if_neg (by simp)]
    simp only [List.length_cons]
    simp only [replaceAux, hne, Bool.false_eq_true, if_false]
    have hx : replaceAux (c0 :: p) rep (x' ++ t).length (x' ++ t)
        = replaceAll (x' ++ t) (c0 :: p) rep := by
      rw [replaceAll, if_neg (by simp)]
    rw [hx, ih h']
    simp

theorem replaceAll_head (p t rep : Str) (c0 : Char) :
    replaceAll ((c0 :: p) ++ t) (c0 :: p) rep = rep ++ replaceAll t (c0 :: p) rep := by
  rw [replaceAll, if_neg (by simp)]
  have hp : (c0 :: p).isPrefixOf ((c0 :: p) ++ t) = true := prefixOfIff.mpr (prefApp _ _)
  rw [List.cons_append] at hp ⊢
  simp only [List.length_cons, List.length_append]
  simp only [replaceAux, hp, if_true]
  have hdrop : (c0 :: (p ++ t)).drop (c0 :: p).length = t := by
    rw [show (c0 :: (p ++ t)) = (c0 :: p) ++ t by simp]
    exact List.drop_left _ _
  rw [hdrop]
  congr 1
  by_cases ht : t = []
  · subst ht
    rw [replaceAux_nilText, replaceAll_noop]
    rw [infixNilIff]
    simp
  · rw [replaceAll, if_neg (by simp)]
    exact replaceAux_fuel (c0 :: p) rep (by simp) _ _ t (by omega) le_rfl

theorem noInfixAppend (x k p : Str) (c0 : Char) (hx : c0 ∉ x) (hk : ¬ (c0 :: p) <:+: k) :
    ¬ (c0 :: p) <:+: (x ++ k) := by
  induction x with
  | nil => simpa using hk
  | cons a x' ih =>
    intro hinf
    rw [List.cons_append] at hinf
    rcases infixConsElim hinf with hpre | hinf'
    · obtain ⟨u, hu⟩ := hpre
      rw [List.cons_append] at hu
      injection hu with h1 _
      exact hx (by rw [h1]; exact List.mem_cons_self _ _)
    · exact ih (fun hm => hx (List.mem_cons_of_mem _ hm)) hinf'

theorem containsSub_iff (pat s : Str) : containsSub pat s = true ↔ pat <:+: s := by
  induction s with
  | nil =>
    simp only [containsSub, List.isEmpty_iff, infixNilIff]
  | cons c cs ih =>
    simp only [containsSub, Bool.or_eq_true, prefixOfIff, ih]
    constructor
    · rintro (hp | hi)
      · exact preToInfixRel hp
      · exact infixConsIntro hi
    · intro h
      rcases infixConsElim h with hp | hi
      · exact Or.inl hp
      · exact Or.inr hi

set_option maxRecDepth 8000

theorem replaceChain (u0 u1 g s d a : Str)
    (h0 : lbrace ∉ u0) (h1 : lbrace ∉ u1) (hg : lbrace ∉ g) (hs : lbrace ∉ s) (hd : lbrace ∉ d) :
    replaceAll (replaceAll (replaceAll (replaceAll
        (u0 ++ PH_GOLD ++ u1 ++ PH_SILVER ++ tSeg2 ++ PH_DATE ++ tSeg3 ++ PH_ART ++ tSeg4)
        PH_GOLD g) PH_SILVER s) PH_DATE d) PH_ART a
      = u0 ++ g ++ u1 ++ s ++ tSeg2 ++ d ++ tSeg3 ++ a ++ tSeg4 := by
  have e2 : lbrace ∉ tSeg2 := by decide
  have e3 : lbrace ∉ tSeg3 := by decide
  have n1 : ¬ PH_GOLD <:+: (u1 ++ (PH_SILVER ++ (tSeg2 ++ (PH_DATE ++ (tSeg3 ++ (PH_ART ++ tSeg4)))))) :=
    noInfixAppend u1 _ phGoldTail lbrace h1 (notInfixOfContainsSub _ _ (by decide))
  have n2 : ¬ PH_SILVER <:+: (tSeg2 ++ (PH_DATE ++ (tSeg3 ++ (PH_ART ++ tSeg4)))) :=
    notInfixOfContainsSub _ _ (by decide)
  have n3 : ¬ PH_DATE <:+: (tSeg3 ++ (PH_ART ++ tSeg4)) :=
    notInfixOfContainsSub _ _ (by decide)
  have n4 : ¬ PH_ART <:+: tSeg4 :=
    notInfixOfContainsSub _ _ (by decide)
  have s1 : replaceAll
        (u0 ++ (PH_GOLD ++ (u1 ++ (PH_SILVER ++ (tSeg2 ++ (PH_DATE ++ (tSeg3 ++ (PH_ART ++ tSeg4))))))))
        PH_GOLD g
      = u0 ++ (g ++ (u1 ++ (PH_SILVER ++ (tSeg2 ++ (PH_DATE ++ (tSeg3 ++ (PH_ART ++ tSeg4))))))) := by
    rw [show PH_GOLD = lbrace :: phGoldTail from rfl]
    rw [replaceAll_skip _ _ _ _ _ h0, replaceAll_head,
        replaceAll_noop _ (lbrace :: phGoldTail) g n1]
  have s2 : replaceAll
        (u0 ++ (g ++ (u1 ++ (PH_SILVER ++ (tSeg2 ++ (PH_DATE ++ (tSeg3 ++ (PH_ART ++ tSeg4))))))))
        PH_SILVER s
      = u0 ++ (g ++ (u1 ++ (s ++ (tSeg2 ++ (PH_DATE ++ (tSeg3 ++ (PH_ART ++ tSeg4))))))) := by
    rw [show PH_SILVER = lbrace :: phSilverTail from rfl]
    rw [replaceAll_skip _ _ _ _ _ h0, replaceAll_skip _ _ _ _ _ hg, replaceAll_skip _ _ _ _ _ h1,
        replaceAll_head, replaceAll_noop _ (lbrace :: phSilverTail) s n2]
  have s3 : replaceAll
        (u0 ++ (g ++ (u1 ++ (s ++ (tSeg2 ++ (PH_DATE ++ (tSeg3 ++ (PH_ART ++ tSeg4))))))))
        PH_DATE d
      = u0 ++ (g ++ (u1 ++ (s ++ (tSeg2 ++ (d ++ (tSeg3 ++ (PH_ART ++ tSeg4))))))) := by
    rw [show PH_DATE = lbrace :: phDateTail from rfl]
    rw [replaceAll_skip _ _ _ _ _ h0, replaceAll_skip _ _ _ _ _ hg, replaceAll_skip _ _ _ _ _ h1,
        replaceAll_skip _ _ _ _ _ hs, replaceAll_skip _ _ _ _ _ e2,
        replaceAll_head, replaceAll_noop _ (lbrace :: phDateTail) d n3]
  have s4 : replaceAll
        (u0 ++ (g ++ (u1 ++ (s ++ (tSeg2 ++ (d ++ (tSeg3 ++ (PH_ART ++ tSeg4))))))))
        PH_ART a
      = u0 ++ (g ++ (u1 ++ (s ++ (tSeg2 ++ (d ++ (tSeg3 ++ (a ++ tSeg4))))))) := by
    rw [show PH_ART = lbrace :: phArtTail from rfl]
    rw [replaceAll_skip _ _ _ _ _ h0, replaceAll_skip _ _ _ _ _ hg, replaceAll_skip _ _ _ _ _ h1,
        replaceAll_skip _ _ _ _ _ hs, replaceAll_skip _ _ _ _ _ e2,
        replaceAll_skip _ _ _ _ _ hd, replaceAll_skip _ _ _ _ _ e3,
        replaceAll_head, replaceAll_noop _ (lbrace :: phArtTail) a n4]
  have hT : u0 ++ PH_GOLD ++ u1 ++ PH_SILVER ++ tSeg2 ++ PH_DATE ++ tSeg3 ++ PH_ART ++ tSeg4
      = u0 ++ (PH_GOLD ++ (u1 ++ (PH_SILVER ++ (tSeg2 ++ (PH_DATE ++ (tSeg3 ++ (PH_ART ++ tSeg4))))))) := by
    simp [List.append_assoc]
  rw [hT, s1, s2, s3, s4]
  simp [List.append_assoc]

theorem hideTopEq : replaceAll TEMPLATE topDivOpen topDivHidden
    = tSeg0H ++ PH_GOLD ++ tSeg1 ++ PH_SILVER ++ tSeg2 ++ PH_DATE ++ tSeg3 ++ PH_ART ++ tSeg4 := by
  decide

theorem hideBotEq : replaceAll TEMPLATE bottomDivOpen bottomDivHidden
    = tSeg0 ++ PH_GOLD ++ tSeg1H ++ PH_SILVER ++ tSeg2 ++ PH_DATE ++ tSeg3 ++ PH_ART ++ tSeg4 := by
  decide

theorem hideBothEq :
    replaceAll (replaceAll TEMPLATE topDivOpen topDivHidden) bottomDivOpen bottomDivHidden
      = tSeg0H ++ PH_GOLD ++ tSeg1H ++ PH_SILVER ++ tSeg2 ++ PH_DATE ++ tSeg3 ++ PH_ART ++ tSeg4 := by
  decide

theorem generateTEMPLATE_eq (gold silver : Option (List Sponsor)) (arts : List Str) (d : Str)
    (hG : lbrace ∉ tierHtml gold) (hS : lbrace ∉ tierHtml silver) (hd : lbrace ∉ d) :
    generate_newspaper_html TEMPLATE arts gold silver (chars "English") d
      = u0Of gold ++ tierHtml gold ++ u1Of silver ++ tierHtml silver
          ++ tSeg2 ++ d ++ tSeg3 ++ artsHtml arts ++ tSeg4 := by
  have hlang : ¬ (chars "English" = chars "Hindi") := by decide
  by_cases hgt : truthy gold = true
  · by_cases hst : truthy silver = true
    · simp only [generate_newspaper_html, hgt, hst, if_true, if_neg hlang,
        u0Of, u1Of, tierHtml, artsHtml]
      exact replaceChain tSeg0 tSeg1 _ _ _ _ (by decide) (by decide)
        (by simpa [tierHtml, hgt] using hG) (by simpa [tierHtml, hst] using hS) hd
    · rw [Bool.not_eq_true] at hst
      simp only [generate_newspaper_html, hgt, hst, if_true, Bool.false_eq_true, if_false,
        if_neg hlang, u0Of, u1Of, tierHtml, artsHtml]
      rw [hideBotEq]
      exact replaceChain tSeg0 tSeg1H _ _ _ _ (by decide) (by decide)
        (by simpa [tierHtml, hgt] using hG) (by simp) hd
  · rw [Bool.not_eq_true] at hgt
    by_cases hst : truthy silver = true
    · simp only [generate_newspaper_html, hgt, hst, if_true, Bool.false_eq_true, if_false,
        if_neg hlang, u0Of, u1Of, tierHtml, artsHtml]
      rw [hideTopEq]
      exact replaceChain tSeg0H tSeg1 _ _ _ _ (by decide) (by decide)
        (by simp) (by simpa [tierHtml, hst] using hS) hd
    · rw [Bool.not_eq_true] at hst
      simp only [generate_newspaper_html, hgt, hst, Bool.false_eq_true, if_false,
        if_neg hlang, u0Of, u1Of, tierHtml, artsHtml]
      rw [hideBothEq]
      exact replaceChain tSeg0H tSeg1H _ _ _ _ (by decide) (by decide)
        (by simp) (by simp) hd

theorem infixGrowRight {m w z : Str} (h : m <:+: w) : m <:+: w ++ z := by
  obtain ⟨p, q, hpq⟩ := h
  exact ⟨p, q ++ z, by rw [← hpq]; simp [List.append_assoc]⟩

theorem sectionInfix (u G r q p : Str) (hu : u = p ++ q) :
    (q ++ (G ++ divClose)) <:+: ((u ++ G) ++ (divClose ++ r)) := by
  refine ⟨p, r, ?_⟩
  rw [hu]
  simp [List.append_assoc]

theorem u1Of_eq (o : Option (List Sponsor)) : u1Of o = divClose ++ u1TailOf o := by
  cases htr : truthy o <;> simp only [u1Of, u1TailOf, htr, Bool.false_eq_true, if_false, if_true] <;> decide

theorem sponsorImg_brace_free (sp : Sponsor) (hn : lbrace ∉ sp.name) (hu : lbrace ∉ sp.logo_url) :
    lbrace ∉ sponsorImg sp := by
  intro hc
  simp only [sponsorImg, List.mem_append] at hc
  rcases hc with ((((h | h) | h) | h) | h)
  · exact absurd h (by decide)
  · exact hu h
  · exact absurd h (by decide)
  · exact hn h
  · exact absurd h (by decide)

theorem sponsorsHtml_brace_free (l : List Sponsor)
    (h : ∀ sp ∈ l, lbrace ∉ sp.name ∧ lbrace ∉ sp.logo_url) :
    lbrace ∉ (l.map sponsorImg).flatten := by
  intro hc
  rw [List.mem_flatten] at hc
  obtain ⟨piece, hpiece, hmem⟩ := hc
  rw [List.mem_map] at hpiece
  obtain ⟨sp, hsp, rfl⟩ := hpiece
  exact sponsorImg_brace_free sp (h sp hsp).1 (h sp hsp).2 hmem

theorem tierHtml_brace_free (o : Option (List Sponsor))
    (h : ∀ l, o = some l → ∀ sp ∈ l, lbrace ∉ sp.name ∧ lbrace ∉ sp.logo_url) :
    lbrace ∉ tierHtml o := by
  cases o with
  | none => simp [tierHtml, truthy]
  | some l =>
    cases l with
    | nil => simp [tierHtml, truthy]
    | cons x xs =>
      simp only [tierHtml, truthy, if_true, Option.getD_some]
      exact sponsorsHtml_brace_free (x :: xs) (h (x :: xs) rfl)

/-- C4 counterexample: with a gold sponsor whose name contains the silver
placeholder token, later substitution rewrites the gold image's alternate
text, so the document does not contain the gold sponsor's image element
(source = logo_url, alternate text = name) even though the gold tier is a
one-element list — the claim fails without a well-formedness restriction
on sponsor fields. -/
theorem sponsor_sections_counterexample :
    containsSub (sponsorImg spInject) docInj = false ∧
    containsSub (sponsorImg spSilverCo) docInj = true := by decide

/-- C4 amended: provided sponsor names, logo URLs and the date string
contain no left-brace character (so they cannot collide with placeholder
tokens): an absent tier renders its container hidden and empty, and a
non-empty tier renders its container holding exactly the image elements of
its sponsors (source = logo_url, alternate text = name), concatenated in
list order with no separator. -/
theorem generate_sponsor_sections (gold silver : Option (List Sponsor)) (arts : List Str) (d : Str)
    (hgold : ∀ l, gold = some l → ∀ sp ∈ l, lbrace ∉ sp.name ∧ lbrace ∉ sp.logo_url)
    (hsilver : ∀ l, silver = some l → ∀ sp ∈ l, lbrace ∉ sp.name ∧ lbrace ∉ sp.logo_url)
    (hd : lbrace ∉ d) :
    (gold = none → (topDivHidden ++ divClose) <:+:
        generate_newspaper_html TEMPLATE arts gold silver (chars "English") d) ∧
    (∀ x l, gold = some (x :: l) → (topDivOpen ++ (((x :: l).map sponsorImg).flatten ++ divClose)) <:+:
        generate_newspaper_html TEMPLATE arts gold silver (chars "English") d) ∧
    (silver = none → (bottomDivHidden ++ divClose) <:+:
        generate_newspaper_html TEMPLATE arts gold silver (chars "English") d) ∧
    (∀ x l, silver = some (x :: l) → (bottomDivOpen ++ (((x :: l).map sponsorImg).flatten ++ divClose)) <:+:
        generate_newspaper_html TEMPLATE arts gold silver (chars "English") d) := by
  rw [generateTEMPLATE_eq gold silver arts d (tierHtml_brace_free gold hgold)
    (tierHtml_brace_free silver hsilver) hd]
  refine ⟨?_, ?_, ?_, ?_⟩
  · rintro rfl
    rw [show u0Of none = tSeg0H from rfl, show tierHtml none = [] from rfl, u1Of_eq]
    refine infixGrowRight (infixGrowRight (infixGrowRight (infixGrowRight
      (infixGrowRight (infixGrowRight ?_)))))
    simpa using sectionInfix tSeg0H [] (u1TailOf silver) topDivHidden
      (chars "<html><body>") (by decide)
  · rintro x l rfl
    rw [show u0Of (some (x :: l)) = tSeg0 from rfl,
        show tierHtml (some (x :: l)) = ((x :: l).map sponsorImg).flatten from rfl, u1Of_eq]
    refine infixGrowRight (infixGrowRight (infixGrowRight (infixGrowRight
      (infixGrowRight (infixGrowRight ?_)))))
    exact sectionInfix tSeg0 (((x :: l).map sponsorImg).flatten) (u1TailOf silver) topDivOpen
      (chars "<html><body>") (by decide)
  · rintro rfl
    rw [show u1Of none = tSeg1H from rfl, show tierHtml none = [] from rfl,
        show tSeg2 = divClose ++ chars "<p class=\"date\">" from (by decide)]
    refine infixGrowRight (infixGrowRight (infixGrowRight (infixGrowRight ?_)))
    have hu : (u0Of gold ++ tierHtml gold) ++ tSeg1H
        = ((u0Of gold ++ tierHtml gold) ++ divClose) ++ bottomDivHidden := by
      rw [show tSeg1H = divClose ++ bottomDivHidden from (by decide)]
      simp [List.append_assoc]
    simpa using sectionInfix ((u0Of gold ++ tierHtml gold) ++ tSeg1H) []
      (chars "<p class=\"date\">") bottomDivHidden ((u0Of gold ++ tierHtml gold) ++ divClose) hu
  · rintro x l rfl
    rw [show u1Of (some (x :: l)) = tSeg1 from rfl,
        show tierHtml (some (x :: l)) = ((x :: l).map sponsorImg).flatten from rfl,
        show tSeg2 = divClose ++ chars "<p class=\"date\">" from (by decide)]
    refine infixGrowRight (infixGrowRight (infixGrowRight (infixGrowRight ?_)))
    have hu : (u0Of gold ++ tierHtml gold) ++ tSeg1
        = ((u0Of gold ++ tierHtml gold) ++ divClose) ++ bottomDivOpen := by
      rw [show tSeg1 = divClose ++ bottomDivOpen from (by decide)]
      simp [List.append_assoc]
    exact sectionInfix ((u0Of gold ++ tierHtml gold) ++ tSeg1)
      (((x :: l).map sponsorImg).flatten) (chars "<p class=\"date\">") bottomDivOpen
      ((u0Of gold ++ tierHtml gold) ++ divClose) hu

theorem generate_sponsor_sections_witness :
    (topDivOpen ++ (([spAcme].map sponsorImg).flatten ++ divClose)) <:+:
      generate_newspaper_html TEMPLATE [] (some [spAcme]) none (chars "English") (chars "D") :=
  (generate_sponsor_sections (some [spAcme]) none [] (chars "D")
    (by intro l hl; injection hl with h; subst h; decide)
    (fun l hl => Option.noConfusion hl)
    (by decide)).2.1 spAcme [] rfl

/-- C5: on the model template containing all four placeholders, with the
fixed date string and the single fixed article fragment, the assembled
document contains the exact date string and the fragment wrapped in an
article container, and no occurrence of any placeholder token remains. -/
theorem template_roundtrip :
    containsSub (chars "Monday, 01 January 2024") docC5 = true ∧
    containsSub (chars "<article><h3>T</h3><p>S</p></article>") docC5 = true ∧
    containsSub PH_GOLD docC5 = false ∧
    containsSub PH_SILVER docC5 = false ∧
    containsSub PH_DATE docC5 = false ∧
    containsSub PH_ART docC5 = false := by decide

/-- C8 counterexample: `str.replace` with a pattern that does not occur is
a silent no-op, not an error — on a template containing none of the
placeholders the function totally succeeds and returns the template
unchanged, contradicting the claim that a missing placeholder match is
treated as a build-time failure. -/
theorem missing_placeholder_counterexample :
    generate_newspaper_html (chars "hello") [] (some [spAcme]) (some [spAcme])
      (chars "English") (chars "D") = chars "hello" := by decide

/-- C8 amended: a placeholder with no match in the template is a silent
no-op, not a build-time error: substitution is total and never fails, and
a template containing none of the four placeholder tokens nor the two
sponsor container tags is returned completely unchanged. -/
theorem missing_placeholder_noop (t : Str) (arts : List Str)
    (gold silver : Option (List Sponsor)) (d : Str)
    (hg : containsSub PH_GOLD t = false) (hs : containsSub PH_SILVER t = false)
    (hdt : containsSub PH_DATE t = false) (har : containsSub PH_ART t = false)
    (htop : containsSub topDivOpen t = false) (hbot : containsSub bottomDivOpen t = false) :
    generate_newspaper_html t arts gold silver (chars "English") d = t := by
  have hlang : ¬ (chars "English" = chars "Hindi") := by decide
  have keyTop : replaceAll t topDivOpen topDivHidden = t :=
    replaceAll_noop _ _ _ (notInfixOfContainsSub _ _ htop)
  have keyBot : ∀ u : Str, u = t → replaceAll u bottomDivOpen bottomDivHidden = t := by
    rintro u rfl
    exact replaceAll_noop _ _ _ (notInfixOfContainsSub _ _ hbot)
  have key : ∀ u : Str, u = t → ∀ r1 r2 r3 r4 : Str,
      replaceAll (replaceAll (replaceAll (replaceAll u PH_GOLD r1) PH_SILVER r2) PH_DATE r3)
        PH_ART r4 = t := by
    rintro u rfl r1 r2 r3 r4
    rw [replaceAll_noop _ _ _ (notInfixOfContainsSub _ _ hg),
        replaceAll_noop _ _ _ (notInfixOfContainsSub _ _ hs),
        replaceAll_noop _ _ _ (notInfixOfContainsSub _ _ hdt),
        replaceAll_noop _ _ _ (notInfixOfContainsSub _ _ har)]
  by_cases hgt : truthy gold = true
  · by_cases hst : truthy silver = true
    · simp only [generate_newspaper_html, hgt, hst, if_true, if_neg hlang]
      exact key t rfl _ _ _ _
    · rw [Bool.not_eq_true] at hst
      simp only [generate_newspaper_html, hgt, hst, if_true, Bool.false_eq_true, if_false,
        if_neg hlang]
      exact key _ (keyBot t rfl) _ _ _ _
  · rw [Bool.not_eq_true] at hgt
    by_cases hst : truthy silver = true
    · simp only [generate_newspaper_html, hgt, hst, if_true, Bool.false_eq_true, if_false,
        if_neg hlang]
      exact key _ keyTop _ _ _ _
    · rw [Bool.not_eq_true] at hst
      simp only [generate_newspaper_html, hgt, hst, Bool.false_eq_true, if_false, if_neg hlang]
      exact key _ (keyBot _ keyTop) _ _ _ _

theorem missing_placeholder_noop_witness :
    generate_newspaper_html (chars "x") [] none none (chars "English") (chars "D") = chars "x" :=
  missing_placeholder_noop (chars "x") [] none none (chars "D")
    (by decide) (by decide) (by decide) (by decide) (by decide) (by decide)

theorem languageRun_empty (generate : Str → Option Str) (tmpl : Str)
    (gold silver : Option (List Sponsor)) (sources : List SourceResult)
    (language date filename : Str) (pdfOk : Bool)
    (h : get_fresh_news sources 20 = []) :
    languageRun generate tmpl gold silver sources language date filename pdfOk = ([], true) := by
  simp [languageRun, h]

theorem languageRun_success_events (generate : Str → Option Str) (tmpl : Str)
    (gold silver : Option (List Sponsor)) (sources : List SourceResult)
    (language date filename : Str)
    (hne : get_fresh_news sources 20 ≠ []) :
    languageRun generate tmpl gold silver sources language date filename true
      = ([Event.analysisRun language, Event.htmlGenerated language,
          Event.pdfWritten filename (generate_newspaper_html tmpl
            (get_ai_analysis generate language (get_fresh_news sources 20))
            gold silver language date)], true) := by
  simp [languageRun, List.isEmpty_iff, hne]

theorem languageRun_failure_events (generate : Str → Option Str) (tmpl : Str)
    (gold silver : Option (List Sponsor)) (sources : List SourceResult)
    (language date filename : Str)
    (hne : get_fresh_news sources 20 ≠ []) :
    languageRun generate tmpl gold silver sources language date filename false
      = ([Event.analysisRun language, Event.htmlGenerated language], false) := by
  simp [languageRun, List.isEmpty_iff, hne]

theorem hasLangEvent_languageRun_ne (L F : Str) (generate : Str → Option Str) (tmpl : Str)
    (gold silver : Option (List Sponsor)) (sources : List SourceResult)
    (language date filename : Str) (pdfOk : Bool)
    (hL : language ≠ L) (hF : filename ≠ F) :
    hasLangEvent L F (languageRun generate tmpl gold silver sources language date filename pdfOk).1
      = false := by
  by_cases he : (get_fresh_news sources 20).isEmpty = true
  · simp [languageRun, he, hasLangEvent]
  · cases pdfOk with
    | true => simp [languageRun, he, hasLangEvent, isLangEvent, hL, hF]
    | false => simp [languageRun, he, hasLangEvent, isLangEvent, hL, hF]

/-- C6 counterexample: in a world where both feed lists yield articles and
the Hindi render would succeed, a failing English `write_pdf` raises out
of `__main__` (no `try` surrounds the language blocks), so the Hindi run
emits no event at all — the second language's run does not proceed. -/
theorem pdf_failure_counterexample :
    hasLangEvent (chars "Hindi") (chars "Unmasked_India_HI.pdf") (mainWorkflow envC6).1 = false ∧
    get_fresh_news envC6.hindiSources 20 ≠ [] ∧ envC6.hindiPdfOk = true := by decide

/-- C6 amended: a PDF-rendering failure in the first (English) run aborts
the whole process — no PDF at all is written and the Hindi run never
starts; conversely, once the English run has written its PDF, a later
Hindi failure cannot affect it: the English PDF is among the written
files whenever sponsors load, English articles exist and the English
render succeeds. -/
theorem pdf_failure_amended (e : Env) :
    (get_fresh_news e.englishSources 20 ≠ [] → e.englishPdfOk = false →
      (mainWorkflow e).2 = false ∧ writtenFiles (mainWorkflow e).1 = []) ∧
    (e.sponsorFile ≠ .unreadable → get_fresh_news e.englishSources 20 ≠ [] →
      e.englishPdfOk = true →
      chars "Unmasked_India_EN.pdf" ∈ writtenFiles (mainWorkflow e).1) := by
  constructor
  · intro hne hpdf
    cases hload : load_sponsors e.sponsorFile with
    | error u => simp [mainWorkflow, hload, writtenFiles]
    | ok gs =>
      have hen : englishRun e gs.1 gs.2
          = ([Event.analysisRun (chars "English"), Event.htmlGenerated (chars "English")], false) := by
        rw [show englishRun e gs.1 gs.2 = languageRun e.generate e.template gs.1 gs.2
          e.englishSources (chars "English") e.englishDate (chars "Unmasked_India_EN.pdf")
          e.englishPdfOk from rfl, hpdf]
        exact languageRun_failure_events _ _ _ _ _ _ _ _ hne
      simp [mainWorkflow, hload, hen, writtenFiles]
  · intro hsf hne hpdf
    cases hload : load_sponsors e.sponsorFile with
    | error u =>
      exfalso
      cases hf : e.sponsorFile with
      | absent => rw [hf] at hload; simp [load_sponsors] at hload
      | unreadable => exact hsf hf
      | valid cfg => rw [hf] at hload; simp [load_sponsors] at hload
    | ok gs =>
      have hen : englishRun e gs.1 gs.2
          = ([Event.analysisRun (chars "English"), Event.htmlGenerated (chars "English"),
              Event.pdfWritten (chars "Unmasked_India_EN.pdf")
                (generate_newspaper_html e.template
                  (get_ai_analysis e.generate (chars "English")
                    (get_fresh_news e.englishSources 20))
                  gs.1 gs.2 (chars "English") e.englishDate)], true) := by
        rw [show englishRun e gs.1 gs.2 = languageRun e.generate e.template gs.1 gs.2
          e.englishSources (chars "English") e.englishDate (chars "Unmasked_India_EN.pdf")
          e.englishPdfOk from rfl, hpdf]
        exact languageRun_success_events _ _ _ _ _ _ _ _ hne
      simp [mainWorkflow, hload, hen, writtenFiles, List.filterMap_append]

theorem pdf_failure_amended_witness :
    (mainWorkflow envC6).2 = false ∧ writtenFiles (mainWorkflow envC6).1 = [] :=
  (pdf_failure_amended envC6).1 (by decide) (by decide)

/-- C9: if the sponsor configuration file exists but cannot be read or
parsed (any exception other than `FileNotFoundError`), `load_sponsors`
does not return the sentinel: the exception propagates and the run aborts
before any document is generated or PDF written. -/
theorem unreadable_sponsor_file_aborts (e : Env) (h : e.sponsorFile = .unreadable) :
    load_sponsors e.sponsorFile = .error () ∧ mainWorkflow e = ([], false) := by
  refine ⟨by rw [h]; rfl, ?_⟩
  simp [mainWorkflow, h, load_sponsors]

theorem unreadable_sponsor_file_aborts_witness :
    load_sponsors envC9.sponsorFile = .error () ∧ mainWorkflow envC9 = ([], false) :=
  unreadable_sponsor_file_aborts envC9 rfl

/-- C10: if `get_fresh_news` returns no articles for a language, that
language's pipeline is skipped entirely: no analysis run, no document
generation and no PDF write event for that language occurs. -/
theorem empty_fetch_language_skipped (e : Env) :
    (get_fresh_news e.englishSources 20 = [] →
      hasLangEvent (chars "English") (chars "Unmasked_India_EN.pdf") (mainWorkflow e).1 = false) ∧
    (get_fresh_news e.hindiSources 20 = [] →
      hasLangEvent (chars "Hindi") (chars "Unmasked_India_HI.pdf") (mainWorkflow e).1 = false) := by
  constructor
  · intro h
    cases hload : load_sponsors e.sponsorFile with
    | error u => simp [mainWorkflow, hload, hasLangEvent]
    | ok gs =>
      have hen : englishRun e gs.1 gs.2 = ([], true) :=
        languageRun_empty _ _ _ _ _ _ _ _ _ h
      simp only [mainWorkflow, hload, hen, List.nil_append, if_true]
      exact hasLangEvent_languageRun_ne _ _ _ _ _ _ _ _ _ _ _ (by decide) (by decide)
  · intro h
    cases hload : load_sponsors e.sponsorFile with
    | error u => simp [mainWorkflow, hload, hasLangEvent]
    | ok gs =>
      have hhi : hindiRun e gs.1 gs.2 = ([], true) :=
        languageRun_empty _ _ _ _ _ _ _ _ _ h
      by_cases hen2 : (englishRun e gs.1 gs.2).2 = true
      · simp only [mainWorkflow, hload, hen2, if_true, hhi, List.append_nil]
        exact hasLangEvent_languageRun_ne _ _ _ _ _ _ _ _ _ _ _ (by decide) (by decide)
      · rw [Bool.not_eq_true] at hen2
        simp only [mainWorkflow, hload, hen2, Bool.false_eq_true, if_false]
        exact hasLangEvent_languageRun_ne _ _ _ _ _ _ _ _ _ _ _ (by decide) (by decide)

theorem empty_fetch_language_skipped_witness :
    hasLangEvent (chars "English") (chars "Unmasked_India_EN.pdf") (mainWorkflow envC10).1
      = false :=
  (empty_fetch_language_skipped envC10).1 (by decide)
